import Mathlib

/-
Verification of the workflow-engine repository against its specification.

The Python sources are shallowly embedded: Python dicts become association
lists, Python exceptions become Except values, and the cooperative asyncio
scheduler is modelled as the sequential execution order the single-threaded
event loop produces for deterministic node bodies.  Wall-clock timestamps
are abstracted to presence marks (Option Unit).
-/

namespace WorkflowRepo

/-- Runtime values flowing through node params and results: the JSON-like
types the engine manipulates (src/core/engine.py, src/core/params.py).
Numbers are modelled as integers; floats play no role in the claims. -/
inductive Value where
  | vStr (s : String)
  | vInt (n : Int)
  | vBool (b : Bool)
  | vNone
  | vList (xs : List Value)
  | vDict (xs : List (String × Value))
deriving Repr

/-- Association-list lookup, modelling Python dict membership and access. -/
def alookup {α : Type} (m : List (String × α)) (k : String) : Option α :=
  match m with
  | [] => none
  | (k2, v) :: rest => if k = k2 then some v else alookup rest k

/-- Association-list update, modelling Python dict assignment: an existing
binding is overwritten in place, a new key is appended (insertion order). -/
def ainsert {α : Type} (m : List (String × α)) (k : String) (v : α) :
    List (String × α) :=
  match m with
  | [] => [(k, v)]
  | (k2, v2) :: rest =>
    if k = k2 then (k2, v) :: rest else (k2, v2) :: ainsert rest k v

mutual

/-- Python repr of a value, restricted to the embedded value types; faithful
for strings containing no quote or backslash characters. -/
def pyRepr : Value → String
  | .vStr s => "\x27" ++ s ++ "\x27"
  | .vInt n => toString n
  | .vBool b => if b then "True" else "False"
  | .vNone => "None"
  | .vList xs => "[" ++ pyReprListAux xs ++ "]"
  | .vDict xs => "\x7b" ++ pyReprDictAux xs ++ "\x7d"

/-- Comma-joined reprs of list elements. -/
def pyReprListAux : List Value → String
  | [] => ""
  | [x] => pyRepr x
  | x :: y :: rest => pyRepr x ++ ", " ++ pyReprListAux (y :: rest)

/-- Comma-joined reprs of dict entries. -/
def pyReprDictAux : List (String × Value) → String
  | [] => ""
  | [(k, v)] => "\x27" ++ k ++ "\x27: " ++ pyRepr v
  | (k, v) :: e :: rest =>
    "\x27" ++ k ++ "\x27: " ++ pyRepr v ++ ", " ++ pyReprDictAux (e :: rest)

end

/-- Python str of a value: identity on strings, repr otherwise (matching
the builtin str on int, bool, None, list and dict). -/
def pyStr : Value → String
  | .vStr s => s
  | v => pyRepr v

/-- Python type name of a value, as interpolated by str(type(x)). -/
def pyTypeName : Value → String
  | .vStr _ => "<class \x27str\x27>"
  | .vInt _ => "<class \x27int\x27>"
  | .vBool _ => "<class \x27bool\x27>"
  | .vNone => "<class \x27NoneType\x27>"
  | .vList _ => "<class \x27list\x27>"
  | .vDict _ => "<class \x27dict\x27>"

/-- Node execution status (engine.py NodeStatus). -/
inductive NodeStatus where
  | pending
  | running
  | completed
  | failed
deriving Repr, DecidableEq

/-- Workflow execution status (engine.py WorkflowStatus). -/
inductive WorkflowStatus where
  | pending
  | running
  | paused
  | completed
  | failed
  | cancelled
deriving Repr, DecidableEq

/-- A node result data payload: the dict a node body returns. -/
def Data := List (String × Value)

/-- Node execution result (engine.py NodeResult dataclass).  The two
wall-clock timestamps are abstracted to presence marks. -/
structure NodeResult where
  success : Bool
  status : NodeStatus
  data : Option Data := none
  error : Option String := none
  start_time : Option Unit := none
  end_time : Option Unit := none

/-- Python truthiness of the data field as used by the guards
"if not results[node].data": falsy when absent or an empty dict. -/
def dataTruthy : Option Data → Bool
  | none => false
  | some d => !(List.isEmpty d)

/-- Character class of the regex patterns in both resolvers:
[a-zA-Z0-9_], ASCII only. -/
def isWordChar (c : Char) : Bool :=
  (Char.ofNat 97 ≤ c && c ≤ Char.ofNat 122) ||
  (Char.ofNat 65 ≤ c && c ≤ Char.ofNat 90) ||
  (Char.ofNat 48 ≤ c && c ≤ Char.ofNat 57) || c = Char.ofNat 95

/-- Maximal prefix of word characters and the remaining suffix, the greedy
semantics of a plus-quantified character class. -/
def wordRun : List Char → List Char × List Char
  | [] => ([], [])
  | c :: cs =>
    if isWordChar c then
      let r := wordRun cs
      (c :: r.1, r.2)
    else ([], c :: cs)

/-- Python str.split(sep) for a single-character separator: at least one
field, empty fields preserved. -/
def splitOnChar (sep : Char) : List Char → List (List Char)
  | [] => [[]]
  | c :: rest =>
    let r := splitOnChar sep rest
    if c = sep then [] :: r
    else
      match r with
      | [] => [[c]]
      | h :: t => (c :: h) :: t

/-- Results map: the per-workflow dict from node id to its latest result. -/
def ResMap := List (String × NodeResult)

/-- Shared lookup of engine.py _process_params: results[node].data[key] with
the three ValueError messages for a missing node, falsy data and a missing
key (engine.py lines 321 to 327 and 339 to 345, identical messages). -/
def engineResolve (results : ResMap) (node key : String) :
    Except String Value :=
  match alookup results node with
  | none => .error ("引用了未执行的节点: " ++ node)
  | some r =>
    match r.data with
    | none => .error ("节点 " ++ node ++ " 没有返回数据")
    | some d =>
      if List.isEmpty d then .error ("节点 " ++ node ++ " 没有返回数据")
      else
        match alookup d key with
        | none => .error ("节点 " ++ node ++ " 的结果中不存在参数: " ++ key)
        | some v => .ok v

/-- Scanner for re.sub over the engine pattern
backslash-dollar ([a-zA-Z0-9_]+) backslash-dot ([a-zA-Z0-9_]+): leftmost
non-overlapping matches, each replaced by str of the resolved value; a
ValueError raised by the replacement callback propagates.  Fuel decreases
once per step; each step consumes at least one character, so fuel equal to
the length of the input is always sufficient. -/
def replaceExpressionE (results : ResMap) :
    Nat → List Char → Except String (List Char)
  | 0, cs => .ok cs
  | _ + 1, [] => .ok []
  | fuel + 1, c :: cs =>
    if c = '$' then
      match wordRun cs with
      | ([], _) =>
        (replaceExpressionE results fuel cs).map (fun r => c :: r)
      | (nrun, rest1) =>
        match rest1 with
        | '.' :: rest2 =>
          match wordRun rest2 with
          | ([], _) =>
            (replaceExpressionE results fuel cs).map (fun r => c :: r)
          | (krun, rest3) =>
            match engineResolve results (String.mk nrun) (String.mk krun) with
            | .error e => .error e
            | .ok v =>
              (replaceExpressionE results fuel rest3).map
                (fun r => (pyStr v).data ++ r)
        | _ =>
          (replaceExpressionE results fuel cs).map (fun r => c :: r)
    else
      (replaceExpressionE results fuel cs).map (fun r => c :: r)

/-- String case of engine.py process_value (lines 333 to 349): the
single-expression form when the string starts with a dollar, contains a
dot and no space (only the first two dot-segments are consulted);
otherwise regex substitution when a dollar occurs; otherwise unchanged. -/
def processStrE (results : ResMap) (s : String) : Except String Value :=
  match s.data with
  | '$' :: tl =>
    if tl.contains '.' && !(s.data.contains ' ') then
      match splitOnChar '.' tl with
      | refNode :: refKey :: _ =>
        engineResolve results (String.mk refNode) (String.mk refKey)
      | _ => .error "unreachable: a dot is present so split yields two parts"
    else if s.data.contains '$' then
      (replaceExpressionE results s.data.length s.data).map
        (fun r => .vStr (String.mk r))
    else .ok (.vStr s)
  | _ =>
    if s.data.contains '$' then
      (replaceExpressionE results s.data.length s.data).map
        (fun r => .vStr (String.mk r))
    else .ok (.vStr s)

mutual

/-- Recursive value processing of engine.py _process_params (lines 331 to
354): strings are resolved, dicts and lists are processed recursively,
other values pass through. -/
def processValueE (results : ResMap) : Value → Except String Value
  | .vStr s => processStrE results s
  | .vDict xs =>
    match processDictE results xs with
    | .error e => .error e
    | .ok ys => .ok (.vDict ys)
  | .vList xs =>
    match processListE results xs with
    | .error e => .error e
    | .ok ys => .ok (.vList ys)
  | .vInt n => .ok (.vInt n)
  | .vBool b => .ok (.vBool b)
  | .vNone => .ok .vNone

/-- Elementwise processing of a list value. -/
def processListE (results : ResMap) : List Value → Except String (List Value)
  | [] => .ok []
  | x :: rest =>
    match processValueE results x with
    | .error e => .error e
    | .ok y =>
      match processListE results rest with
      | .error e => .error e
      | .ok ys => .ok (y :: ys)

/-- Entrywise processing of a dict value. -/
def processDictE (results : ResMap) :
    List (String × Value) → Except String (List (String × Value))
  | [] => .ok []
  | (k, v) :: rest =>
    match processValueE results v with
    | .error e => .error e
    | .ok w =>
      match processDictE results rest with
      | .error e => .error e
      | .ok ws => .ok ((k, w) :: ws)

end

/-- WorkflowEngine._process_params (engine.py lines 289 to 356): the dict
comprehension over the declared params. -/
def process_params (params : List (String × Value)) (results : ResMap) :
    Except String (List (String × Value)) :=
  processDictE results params

/-- Field stepping of params.py: into a dict by key, raising the owner
specific missing-field ValueError; on any non-dict value attribute lookup
is modelled as absent (faithful whenever the field is not the name of a
Python builtin method), raising the cannot-access ValueError. -/
def stepFields (ownerMsg : String → String) :
    Value → List String → Except String Value
  | cur, [] => .ok cur
  | cur, f :: fs =>
    match cur with
    | .vDict d =>
      match alookup d f with
      | some v => stepFields ownerMsg v fs
      | none => .error (ownerMsg f)
    | other =>
      .error ("无法从 " ++ pyTypeName other ++ " 访问字段: " ++ f)

/-- Replacement callback of params.py replace_expression (lines 28 to 49):
the whole match, dollar stripped, is split on dots; the first part names a
node in results, whose data is stepped through the remaining parts; the
string form of the final value is substituted. -/
def procResolve (results : ResMap) (node : String) (fields : List String) :
    Except String Value :=
  match alookup results node with
  | none => .error ("引用了未执行的节点: " ++ node)
  | some r =>
    match r.data with
    | none => .error ("节点 " ++ node ++ " 没有返回数据")
    | some d =>
      if List.isEmpty d then .error ("节点 " ++ node ++ " 没有返回数据")
      else
        stepFields
          (fun f => "节点 " ++ node ++ " 的结果中不存在字段: " ++ f)
          (.vDict d) fields

/-- Greedy star of the regex group (backslash-dot word-plus) in the
params.py pattern: consume as many dot-then-word-run groups as possible.
Fuel decreases once per group; each group consumes at least two
characters, so fuel equal to the input length suffices. -/
def dotRuns : Nat → List Char → List (List Char) × List Char
  | 0, cs => ([], cs)
  | fuel + 1, cs =>
    match cs with
    | '.' :: rest =>
      match wordRun rest with
      | ([], _) => ([], cs)
      | (k, rest2) =>
        let r := dotRuns fuel rest2
        (k :: r.1, r.2)
    | _ => ([], cs)

/-- Scanner for re.sub over the params.py pattern
backslash-dollar ([a-zA-Z0-9_]+) (group of backslash-dot
([a-zA-Z0-9_]+)) star: a dollar followed by a word run matches even with
zero dot groups. -/
def replaceExpressionP (results : ResMap) :
    Nat → List Char → Except String (List Char)
  | 0, cs => .ok cs
  | _ + 1, [] => .ok []
  | fuel + 1, c :: cs =>
    if c = '$' then
      match wordRun cs with
      | ([], _) =>
        (replaceExpressionP results fuel cs).map (fun r => c :: r)
      | (nrun, rest1) =>
        let dr := dotRuns rest1.length rest1
        match procResolve results (String.mk nrun)
            (dr.1.map String.mk) with
        | .error e => .error e
        | .ok v =>
          (replaceExpressionP results fuel dr.2).map
            (fun r => (pyStr v).data ++ r)
    else
      (replaceExpressionP results fuel cs).map (fun r => c :: r)

/-- Context argument of ParamsProcessor.process_params; the Python guard
"if context and ..." treats an absent or empty dict as falsy. -/
def ctxTruthy (context : Option (List (String × Value))) : Bool :=
  match context with
  | none => false
  | some c => !(List.isEmpty c)

/-- String case of params.py process_value (lines 55 to 103).  When the
string starts with a dollar but lacks the dot-and-no-space shape it is
returned unchanged, because the later elif branches belong to the outer
startswith test (the direct context-variable elif on line 98 is therefore
dead code).  Otherwise, for the single-expression shape, a truthy context
containing the first segment takes precedence and is stepped through the
remaining segments; else the first segment names a node whose data is
stepped; a string merely containing a dollar goes through regex
substitution. -/
def processStrP (results : ResMap) (context : Option (List (String × Value)))
    (s : String) : Except String Value :=
  match s.data with
  | '$' :: tl =>
    if tl.contains '.' && !(s.data.contains ' ') then
      match splitOnChar '.' tl with
      | refNode :: fieldParts =>
        let n := String.mk refNode
        let fields := fieldParts.map String.mk
        match context with
        | some ctx =>
          if !(List.isEmpty ctx) then
            match alookup ctx n with
            | some cur =>
              stepFields
                (fun f => "上下文变量 " ++ n ++ " 中不存在字段: " ++ f)
                cur fields
            | none => procResolve results n fields
          else procResolve results n fields
        | none => procResolve results n fields
      | _ => .error "unreachable: split always yields at least one part"
    else .ok (.vStr s)
  | _ =>
    if s.data.contains '$' then
      (replaceExpressionP results s.data.length s.data).map
        (fun r => .vStr (String.mk r))
    else .ok (.vStr s)

mutual

/-- Recursive value processing of params.py process_value (lines 53 to
109): strings are resolved, lists are processed elementwise, and dict
values are returned without processing (the explicit early return on line
106). -/
def processValueP (results : ResMap)
    (context : Option (List (String × Value))) :
    Value → Except String Value
  | .vStr s => processStrP results context s
  | .vDict xs => .ok (.vDict xs)
  | .vList xs =>
    match processListP results context xs with
    | .error e => .error e
    | .ok ys => .ok (.vList ys)
  | .vInt n => .ok (.vInt n)
  | .vBool b => .ok (.vBool b)
  | .vNone => .ok .vNone

/-- Elementwise processing of a list value. -/
def processListP (results : ResMap)
    (context : Option (List (String × Value))) :
    List Value → Except String (List Value)
  | [] => .ok []
  | x :: rest =>
    match processValueP results context x with
    | .error e => .error e
    | .ok y =>
      match processListP results context rest with
      | .error e => .error e
      | .ok ys => .ok (y :: ys)

end

/-- ParamsProcessor.process_params (params.py lines 8 to 110): the dict
comprehension over the declared params. -/
def process_params_proc (params : List (String × Value)) (results : ResMap)
    (context : Option (List (String × Value))) :
    Except String (List (String × Value)) :=
  match params with
  | [] => .ok []
  | (k, v) :: rest =>
    match processValueP results context v with
    | .error e => .error e
    | .ok w =>
      match process_params_proc rest results context with
      | .error e => .error e
      | .ok ws => .ok ((k, w) :: ws)

/-- Classified resolution failures named by the specification. -/
inductive SpecErr where
  | unresolvedRef (node : String)
  | noData (node : String)
  | missingField (field : String)
deriving Repr, DecidableEq

/-- Reference lookup of the section 4.2 resolver: the first segment is
looked up first in context, then in progress; a node with no recorded
result is UNRESOLVED_REF and a result without data is NO_DATA. -/
def specLookupFirst (context : List (String × Value)) (progress : ResMap)
    (seg : String) : Except SpecErr Value :=
  match alookup context seg with
  | some v => .ok v
  | none =>
    match alookup progress seg with
    | none => .error (.unresolvedRef seg)
    | some r =>
      match r.data with
      | none => .error (.noData seg)
      | some d => .ok (.vDict d)

/-- Reference field stepping of the section 4.2 resolver: subsequent
segments step into maps by key; a missing segment is MISSING_FIELD. -/
def specStep : Value → List String → Except SpecErr Value
  | cur, [] => .ok cur
  | cur, f :: fs =>
    match cur with
    | .vDict d =>
      match alookup d f with
      | some v => specStep v fs
      | none => .error (.missingField f)
    | _ => .error (.missingField f)

/-- Reference embedded substitution of the section 4.2 resolver: every
match of backslash-dollar word-plus backslash-dot word-plus is replaced by
the string form of the resolved value, surroundings preserved. -/
def specReplaceEmbedded (context : List (String × Value)) (progress : ResMap) :
    Nat → List Char → Except SpecErr (List Char)
  | 0, cs => .ok cs
  | _ + 1, [] => .ok []
  | fuel + 1, c :: cs =>
    if c = '$' then
      match wordRun cs with
      | ([], _) =>
        (specReplaceEmbedded context progress fuel cs).map (fun r => c :: r)
      | (nrun, rest1) =>
        match rest1 with
        | '.' :: rest2 =>
          match wordRun rest2 with
          | ([], _) =>
            (specReplaceEmbedded context progress fuel cs).map
              (fun r => c :: r)
          | (krun, rest3) =>
            match specLookupFirst context progress (String.mk nrun) with
            | .error e => .error e
            | .ok base =>
              match specStep base [String.mk krun] with
              | .error e => .error e
              | .ok v =>
                (specReplaceEmbedded context progress fuel rest3).map
                  (fun r => (pyStr v).data ++ r)
        | _ =>
          (specReplaceEmbedded context progress fuel cs).map (fun r => c :: r)
    else
      (specReplaceEmbedded context progress fuel cs).map (fun r => c :: r)

mutual

/-- Reference resolver of specification section 4.2, stated from the
spec words for comparison with the two implementations: resolution is
recursive over any nested maps and lists; a string beginning with a
dollar, containing no whitespace and at least one dot is replaced by the
whole referenced value preserving its runtime type; a string merely
containing dollar expressions has each match replaced by the string form
of the resolved value; other strings are unchanged. -/
def specResolveValue (context : List (String × Value)) (progress : ResMap) :
    Value → Except SpecErr Value
  | .vStr s =>
    match s.data with
    | '$' :: tl =>
      if tl.contains '.' && !(s.data.any Char.isWhitespace) then
        match splitOnChar '.' tl with
        | seg1 :: rest =>
          match specLookupFirst context progress (String.mk seg1) with
          | .error e => .error e
          | .ok base => specStep base (rest.map String.mk)
        | _ => .ok (.vStr s)
      else if s.data.contains '$' then
        (specReplaceEmbedded context progress s.data.length s.data).map
          (fun r => .vStr (String.mk r))
      else .ok (.vStr s)
    | _ =>
      if s.data.contains '$' then
        (specReplaceEmbedded context progress s.data.length s.data).map
          (fun r => .vStr (String.mk r))
      else .ok (.vStr s)
  | .vDict xs =>
    match specResolveDict context progress xs with
    | .error e => .error e
    | .ok ys => .ok (.vDict ys)
  | .vList xs =>
    match specResolveList context progress xs with
    | .error e => .error e
    | .ok ys => .ok (.vList ys)
  | .vInt n => .ok (.vInt n)
  | .vBool b => .ok (.vBool b)
  | .vNone => .ok .vNone

/-- Elementwise reference resolution of a list. -/
def specResolveList (context : List (String × Value)) (progress : ResMap) :
    List Value → Except SpecErr (List Value)
  | [] => .ok []
  | x :: rest =>
    match specResolveValue context progress x with
    | .error e => .error e
    | .ok y =>
      match specResolveList context progress rest with
      | .error e => .error e
      | .ok ys => .ok (y :: ys)

/-- Entrywise reference resolution of a map. -/
def specResolveDict (context : List (String × Value)) (progress : ResMap) :
    List (String × Value) → Except SpecErr (List (String × Value))
  | [] => .ok []
  | (k, v) :: rest =>
    match specResolveValue context progress v with
    | .error e => .error e
    | .ok w =>
      match specResolveDict context progress rest with
      | .error e => .error e
      | .ok ws => .ok ((k, w) :: ws)

end

/-- Reference resolution of a whole params map per section 4.2. -/
def specResolveParams (params : List (String × Value))
    (progress : ResMap) (context : List (String × Value)) :
    Except SpecErr (List (String × Value)) :=
  specResolveDict context progress params

lemma contains_eq_false_iff {α : Type} [BEq α] [LawfulBEq α]
    (l : List α) (c : α) : l.contains c = false ↔ c ∉ l := by
  simp [List.contains, List.elem_eq_mem]

lemma contains_eq_true_iff {α : Type} [BEq α] [LawfulBEq α]
    (l : List α) (c : α) : l.contains c = true ↔ c ∈ l := by
  simp [List.contains, List.elem_eq_mem]

lemma isWordChar_spec {c : Char} (h : isWordChar c = true) :
    c ≠ '.' ∧ c ≠ ' ' ∧ c ≠ '$' := by
  refine ⟨?_, ?_, ?_⟩ <;> rintro rfl <;> exact absurd h (by decide)

lemma splitOnChar_no_sep {a : List Char} (h : '.' ∉ a) :
    splitOnChar '.' a = [a] := by
  induction a with
  | nil => rfl
  | cons c cs ih =>
    have hc : c ≠ '.' := fun hh => h (hh ▸ List.mem_cons_self c cs)
    have hcs : '.' ∉ cs := fun hh => h (List.mem_cons_of_mem c hh)
    simp [splitOnChar, hc, ih hcs]

lemma splitOnChar_append {a b : List Char} (h : '.' ∉ a) :
    splitOnChar '.' (a ++ '.' :: b) = a :: splitOnChar '.' b := by
  induction a with
  | nil => simp [splitOnChar]
  | cons c cs ih =>
    have hc : c ≠ '.' := fun hh => h (hh ▸ List.mem_cons_self c cs)
    have hcs : '.' ∉ cs := fun hh => h (List.mem_cons_of_mem c hh)
    rw [List.cons_append]
    simp only [splitOnChar, if_neg hc]
    rw [ih hcs]

lemma processStrE_no_dollar (results : ResMap) (s : String)
    (h : '$' ∉ s.data) : processStrE results s = .ok (.vStr s) := by
  have hcont : s.data.contains '$' = false := (contains_eq_false_iff _ _).mpr h
  unfold processStrE
  split
  · rename_i tl heq
    exact absurd (heq ▸ List.mem_cons_self '$' tl) h
  · rw [hcont]
    rfl

lemma processStrP_no_dollar (results : ResMap)
    (context : Option (List (String × Value))) (s : String)
    (h : '$' ∉ s.data) : processStrP results context s = .ok (.vStr s) := by
  have hcont : s.data.contains '$' = false := (contains_eq_false_iff _ _).mpr h
  unfold processStrP
  split
  · rename_i tl heq
    exact absurd (heq ▸ List.mem_cons_self '$' tl) h
  · rw [hcont]
    rfl

lemma engine_single_expr (results : ResMap) (n k : String)
    (r : NodeResult) (d : Data) (v : Value)
    (hwn : ∀ c ∈ n.data, isWordChar c = true)
    (hwk : ∀ c ∈ k.data, isWordChar c = true)
    (hr : alookup results n = some r) (hd : r.data = some d)
    (hde : d ≠ []) (hv : alookup d k = some v) :
    processValueE results
      (.vStr (String.mk ('$' :: (n.data ++ '.' :: k.data)))) = .ok v := by
  have hdot_n : '.' ∉ n.data := fun hm => (isWordChar_spec (hwn _ hm)).1 rfl
  have hdot_k : '.' ∉ k.data := fun hm => (isWordChar_spec (hwk _ hm)).1 rfl
  have hsp : (' ' : Char) ∉ '$' :: (n.data ++ '.' :: k.data) := by
    intro hm
    rcases List.mem_cons.mp hm with h1 | h2
    · exact absurd h1.symm (by decide)
    · rcases List.mem_append.mp h2 with h3 | h4
      · exact (isWordChar_spec (hwn _ h3)).2.1 rfl
      · rcases List.mem_cons.mp h4 with h5 | h6
        · exact absurd h5.symm (by decide)
        · exact (isWordChar_spec (hwk _ h6)).2.1 rfl
  have hguard1 : (n.data ++ '.' :: k.data).contains '.' = true := by
    rw [contains_eq_true_iff]
    exact List.mem_append.mpr (Or.inr (List.mem_cons_self _ _))
  have hguard2 : (('$' :: (n.data ++ '.' :: k.data)).contains ' ') = false := by
    rw [contains_eq_false_iff]; exact hsp
  have hsplit : splitOnChar '.' (n.data ++ '.' :: k.data)
      = n.data :: [k.data] := by
    rw [splitOnChar_append hdot_n, splitOnChar_no_sep hdot_k]
  have h1 : processValueE results
      (.vStr (String.mk ('$' :: (n.data ++ '.' :: k.data))))
      = processStrE results (String.mk ('$' :: (n.data ++ '.' :: k.data))) := by
    simp [processValueE]
  rw [h1]
  unfold processStrE
  simp only [hguard1, hguard2, hsplit, Bool.not_false, Bool.and_self]
  have hmk_n : String.mk n.data = n := rfl
  have hmk_k : String.mk k.data = k := rfl
  rw [hmk_n, hmk_k]
  unfold engineResolve
  rw [hr]
  have hie : d.isEmpty = false := by
    cases d with
    | nil => exact absurd rfl hde
    | cons x xs => rfl
  simp [hd, hie, hv]

/-- Data of the upstream node q in the section 8 scenario 4 example. -/
def dataQ : Data := [("id", .vStr "42")]

/-- Data of the upstream node u in the section 8 scenario 4 example. -/
def dataU : Data := [("items", .vList [.vInt 1, .vInt 2, .vInt 3])]

/-- Completed result of node q. -/
def resultQ : NodeResult :=
  { success := true, status := .completed, data := some dataQ }

/-- Completed result of node u. -/
def resultU : NodeResult :=
  { success := true, status := .completed, data := some dataU }

/-- Progress map of the section 8 scenario 4 example. -/
def resultsExample : ResMap := [("q", resultQ), ("u", resultU)]

/-- Params of the section 8 scenario 4 example: an embedded expression in
a url and a single-expression list reference. -/
def paramsExample : List (String × Value) :=
  [("url", .vStr "http://x/$q.id"), ("list", .vStr "$u.items")]

/-- Expected resolution of the section 8 scenario 4 example. -/
def resolvedExample : List (String × Value) :=
  [("url", .vStr "http://x/42"),
   ("list", .vList [.vInt 1, .vInt 2, .vInt 3])]

/-- Params whose single-expression reference sits inside a nested map. -/
def paramsNested : List (String × Value) :=
  [("config", .vDict [("list", .vStr "$u.items")])]

/-- Recursive resolution of the nested params, as section 4.2 demands. -/
def paramsNestedResolved : List (String × Value) :=
  [("config", .vDict [("list", .vList [.vInt 1, .vInt 2, .vInt 3])])]

/-- C3: the claim is false: ParamsProcessor.process_params does not apply
resolution recursively inside nested maps (params.py line 106 returns dict
values unprocessed), so on a params map holding a single-expression
reference inside a nested dict it returns the dict unchanged while the
section 4.2 reference resolver substitutes the referenced list. -/
theorem c3_counterexample :
    process_params_proc paramsNested resultsExample none = .ok paramsNested ∧
    specResolveParams paramsNested resultsExample [] =
      .ok paramsNestedResolved ∧
    paramsNested ≠ paramsNestedResolved := by
  refine ⟨rfl, rfl, ?_⟩
  simp [paramsNested, paramsNestedResolved]

/-- C3 (amended): resolution behaviour actually implemented.  Strings
without a dollar are unchanged by both resolvers; ParamsProcessor returns
nested maps unchanged (no recursion into dict values); the engine resolver
substitutes a whole-string reference of the form dollar node dot key by
the referenced value, preserving its runtime type; on the scenario 4
example both resolvers produce the url concatenation and the structural
list passthrough; and the engine resolver does recurse into nested maps. -/
theorem c3_theorem :
    (∀ (results : ResMap) (s : String), '$' ∉ s.data →
      processValueE results (.vStr s) = .ok (.vStr s) ∧
      ∀ ctx, processValueP results ctx (.vStr s) = .ok (.vStr s)) ∧
    (∀ (results : ResMap) ctx (xs : List (String × Value)),
      processValueP results ctx (.vDict xs) = .ok (.vDict xs)) ∧
    (∀ (results : ResMap) (n k : String) (r : NodeResult) (d : Data)
      (v : Value),
      (∀ c ∈ n.data, isWordChar c = true) →
      (∀ c ∈ k.data, isWordChar c = true) →
      alookup results n = some r → r.data = some d → d ≠ [] →
      alookup d k = some v →
      processValueE results
        (.vStr (String.mk ('$' :: (n.data ++ '.' :: k.data)))) = .ok v) ∧
    process_params paramsExample resultsExample = .ok resolvedExample ∧
    process_params_proc paramsExample resultsExample none =
      .ok resolvedExample ∧
    process_params paramsNested resultsExample = .ok paramsNestedResolved := by
  refine ⟨?_, ?_, ?_, rfl, rfl, rfl⟩
  · intro results s h
    constructor
    · have h1 : processValueE results (.vStr s) = processStrE results s := by
        simp [processValueE]
      rw [h1]
      exact processStrE_no_dollar results s h
    · intro ctx
      have h1 : processValueP results ctx (.vStr s)
          = processStrP results ctx s := by
        simp [processValueP]
      rw [h1]
      exact processStrP_no_dollar results ctx s h
  · intro results ctx xs
    simp [processValueP]
  · intro results n k r d v hwn hwk hr hd hde hv
    exact engine_single_expr results n k r d v hwn hwk hr hd hde hv

/-- C3 witness: the amended theorem applied at the scenario 4 inputs: the
plain string literal passes through both resolvers, nested dicts pass
through ParamsProcessor, and the whole-value reference to the items list
of node u resolves to the list itself. -/
theorem c3_witness :
    processValueE resultsExample (.vStr "plain") = .ok (.vStr "plain") ∧
    processValueP resultsExample none (.vDict dataQ) = .ok (.vDict dataQ) ∧
    processValueE resultsExample
      (.vStr (String.mk ('$' :: ("u".data ++ '.' :: "items".data))))
      = .ok (.vList [.vInt 1, .vInt 2, .vInt 3]) := by
  refine ⟨(c3_theorem.1 resultsExample "plain" (by decide)).1,
    c3_theorem.2.1 resultsExample none dataQ,
    c3_theorem.2.2.1 resultsExample "u" "items" resultU dataU
      (.vList [.vInt 1, .vInt 2, .vInt 3])
      (by decide) (by decide) rfl rfl (by simp [dataU]) rfl⟩

/-- Outcome of one node body call, the plug-in side of execute_node
(engine.py lines 174 to 223).  A plain method returns a data dict, None,
or raises; a generator method yields intermediate dicts and then either
finishes (the final data is the last yielded dict, absent when nothing was
yielded) or raises.  A sync generator that raises is modelled as ret
error, because list() materialises it before any intermediate is
emitted. -/
inductive NodeExec where
  | ret (v : Except String (Option Data))
  | gen (yields : List Data) (err : Option String)

/-- Initial event of execute_node (engine.py lines 167 to 172): RUNNING,
success true, no data, start time set. -/
def runningInitial : NodeResult :=
  { success := true, status := .running, start_time := some () }

/-- An intermediate RUNNING event carrying a yielded partial data dict
(engine.py lines 185 to 191). -/
def runningPartial (y : Data) : NodeResult :=
  { success := true, status := .running, data := some y,
    start_time := some () }

/-- Terminal COMPLETED event of execute_node (engine.py lines 225 to
233): success, the final data value (absent when the body bound no
result), both times set. -/
def completedResult (v : Option Data) : NodeResult :=
  { success := true, status := .completed, data := v,
    start_time := some (), end_time := some () }

/-- Terminal FAILED event of execute_node (engine.py lines 235 to 244):
the raised error string, no data, both times set. -/
def failedResult (e : String) : NodeResult :=
  { success := false, status := .failed, error := some e,
    start_time := some (), end_time := some () }

/-- Terminal event of a generator body: COMPLETED with the last yielded
dict, or FAILED with the raised error. -/
def genTerminal (yields : List Data) : Option String → NodeResult
  | none => completedResult yields.getLast?
  | some e => failedResult e

/-- WorkflowEngine.execute_node (engine.py lines 156 to 244) as the list
of NodeResult events it yields, indexed by the body outcome: one initial
RUNNING event, one RUNNING event per yielded intermediate, then exactly
one terminal COMPLETED or FAILED event. -/
def execute_node (ex : NodeExec) : List NodeResult :=
  runningInitial ::
  match ex with
  | .ret (.ok v) => [completedResult v]
  | .ret (.error e) => [failedResult e]
  | .gen yields err => (yields.map runningPartial) ++ [genTerminal yields err]

/-- C4: the claim is false: the very first NodeResult that execute_node
produces is the initial RUNNING event with success true, so success does
not hold iff status is COMPLETED, and its data is absent although success
is set. -/
theorem c4_counterexample :
    (execute_node (.ret (.ok (some dataQ)))).head? = some runningInitial ∧
    ¬ (runningInitial.success = true ↔
        runningInitial.status = NodeStatus.completed) ∧
    runningInitial.data = none := by
  refine ⟨rfl, ?_, rfl⟩
  simp [runningInitial]

/-- C4 (amended): every event of execute_node satisfies: error is present
iff success is false; a COMPLETED event has success true; a FAILED event
has success false and no data; a RUNNING event has success true and no
error; no event is PENDING.  The last event is the unique terminal one
and satisfies the success iff COMPLETED coherence; all earlier events are
RUNNING. -/
theorem c4_theorem :
    (∀ (ex : NodeExec), ∀ r ∈ execute_node ex,
      (r.error.isSome = !r.success) ∧
      (r.status = NodeStatus.completed → r.success = true) ∧
      (r.status = NodeStatus.failed → r.success = false ∧ r.data = none) ∧
      (r.status = NodeStatus.running → r.success = true ∧ r.error = none) ∧
      r.status ≠ NodeStatus.pending) ∧
    (∀ (ex : NodeExec), ∃ last, (execute_node ex).getLast? = some last ∧
      (last.status = NodeStatus.completed ∨
        last.status = NodeStatus.failed) ∧
      (last.success = true ↔ last.status = NodeStatus.completed)) ∧
    (∀ (ex : NodeExec), ∀ r ∈ (execute_node ex).dropLast,
      r.status = NodeStatus.running) := by
  refine ⟨?_, ?_, ?_⟩
  · intro ex r hr
    cases ex with
    | ret v =>
      cases v with
      | ok d =>
        rcases List.mem_cons.mp hr with h | h
        · subst h; simp [runningInitial]
        · rcases List.mem_singleton.mp h with rfl
          simp [completedResult]
      | error e =>
        rcases List.mem_cons.mp hr with h | h
        · subst h; simp [runningInitial]
        · rcases List.mem_singleton.mp h with rfl
          simp [failedResult]
    | gen yields err =>
      rcases List.mem_cons.mp hr with h | h
      · subst h; simp [runningInitial]
      · rcases List.mem_append.mp h with h2 | h2
        · rcases List.mem_map.mp h2 with ⟨y, _, h3⟩
          subst h3; simp [runningPartial]
        · rcases List.mem_singleton.mp h2 with rfl
          cases err with
          | none => simp [genTerminal, completedResult]
          | some e => simp [genTerminal, failedResult]
  · intro ex
    cases ex with
    | ret v =>
      cases v with
      | ok d => exact ⟨completedResult d, rfl, Or.inl rfl,
          by simp [completedResult]⟩
      | error e => exact ⟨failedResult e, rfl, Or.inr rfl,
          by simp [failedResult]⟩
    | gen yields err =>
      have hlast : (execute_node (.gen yields err)).getLast?
          = some (genTerminal yields err) := by
        show ((runningInitial :: yields.map runningPartial)
            ++ [genTerminal yields err]).getLast? = some _
        exact List.getLast?_concat _
      cases err with
      | none =>
        exact ⟨genTerminal yields none, hlast, Or.inl rfl,
          by simp [genTerminal, completedResult]⟩
      | some e =>
        exact ⟨genTerminal yields (some e), hlast, Or.inr rfl,
          by simp [genTerminal, failedResult]⟩
  · intro ex r hr
    cases ex with
    | ret v =>
      cases v with
      | ok d =>
        simp only [execute_node, List.dropLast] at hr
        rcases List.mem_singleton.mp hr with rfl
        rfl
      | error e =>
        simp only [execute_node, List.dropLast] at hr
        rcases List.mem_singleton.mp hr with rfl
        rfl
    | gen yields err =>
      have hshape : execute_node (.gen yields err)
          = (runningInitial :: yields.map runningPartial) ++
            [genTerminal yields err] := rfl
      rw [hshape, List.dropLast_concat] at hr
      rcases List.mem_cons.mp hr with h | h
      · subst h; rfl
      · rcases List.mem_map.mp h with ⟨y, _, h3⟩
        subst h3; rfl

/-- C4 witness: the amended theorem applied to a body returning the data
of node q after one yielded intermediate: both the intermediate and the
terminal event satisfy the amended properties. -/
theorem c4_witness :
    ((runningPartial dataQ).error.isSome = !(runningPartial dataQ).success ∧
      ((runningPartial dataQ).status = NodeStatus.completed →
        (runningPartial dataQ).success = true) ∧
      ((runningPartial dataQ).status = NodeStatus.failed →
        (runningPartial dataQ).success = false ∧
        (runningPartial dataQ).data = none) ∧
      ((runningPartial dataQ).status = NodeStatus.running →
        (runningPartial dataQ).success = true ∧
        (runningPartial dataQ).error = none) ∧
      (runningPartial dataQ).status ≠ NodeStatus.pending) ∧
    ∃ last,
      (execute_node (.gen [dataQ] none)).getLast? = some last ∧
      (last.status = NodeStatus.completed ∨
        last.status = NodeStatus.failed) ∧
      (last.success = true ↔ last.status = NodeStatus.completed) :=
  ⟨c4_theorem.1 (.gen [dataQ] none) (runningPartial dataQ)
      (by simp [execute_node]),
    c4_theorem.2.1 (.gen [dataQ] none)⟩

/-- Graph node declaration (workflow JSON, section 3). -/
structure NodeDef where
  id : String
  type : String
  params : List (String × Value)

/-- Graph edge declaration; the Python keys are from and to, renamed
because from is a Lean keyword. -/
structure EdgeDef where
  fromId : String
  toId : String

/-- Parsed workflow object. -/
structure Workflow where
  nodes : List NodeDef
  edges : List EdgeDef

/-- Classification of the ValueError raised by validate_workflow
(engine.py lines 70 to 88); the message strings are abstracted to
constructors.  The code implements exactly these three checks: there is
no dangling-edge check. -/
inductive ValidationErr where
  | duplicateId
  | unknownType (t : String)
  | cycleFound
deriving Repr, DecidableEq

/-- Python exceptions that escape the engine entry points. -/
inductive PyExc where
  | valueError (msg : String)
  | keyError (key : String)
  | nameError (name : String)
  | validationError (e : ValidationErr)
deriving Repr, DecidableEq

/-- Successor list of a vertex in an edge list. -/
def successors (es : List (String × String)) (v : String) : List String :=
  (es.filter (fun e => e.1 == v)).map (fun e => e.2)

/-- One closure step: add all successors of the accumulated set. -/
def stepClosure (es : List (String × String)) (acc : List String) :
    List String :=
  acc ++ ((acc.flatMap (successors es)).filter
    (fun x => !acc.contains x)).dedup

/-- Iterated closure steps. -/
def reachN (es : List (String × String)) : Nat → List String → List String
  | 0, acc => acc
  | n + 1, acc => reachN es n (stepClosure es acc)

/-- Cycle detection on the induced digraph, modelling networkx find_cycle
as a decision procedure: some vertex reaches itself through at least one
edge.  Only vertices incident to an edge can lie on a cycle. -/
def hasCycle (es : List (String × String)) : Bool :=
  let vs := (es.map (fun e => e.1) ++ es.map (fun e => e.2)).dedup
  vs.any (fun v => (reachN es vs.length (successors es v)).contains v)

/-- Edge list of a workflow as ordered pairs. -/
def graphEdges (wf : Workflow) : List (String × String) :=
  wf.edges.map (fun e => (e.fromId, e.toId))

/-- WorkflowEngine.validate_workflow (engine.py lines 53 to 91): checks,
in order, that node ids are pairwise distinct, that every node type is
registered, and that the induced digraph (to which add_edge silently adds
any endpoint that is not a declared node) is acyclic.  Edge endpoints are
never checked against the node set. -/
def validate_workflow (registered : List String) (wf : Workflow) :
    Except ValidationErr Bool :=
  if (wf.nodes.map (fun n => n.id)).Nodup then
    match wf.nodes.find? (fun n => !(registered.contains n.type)) with
    | some n => .error (.unknownType n.type)
    | none =>
      if hasCycle (graphEdges wf) then .error .cycleFound
      else .ok true
  else .error .duplicateId

/-- Inner loop of the dependency-map construction (engine.py lines 616 to
619): dependencies[edge.to].add(edge.from) raises KeyError when edge.to
is not a declared node id; a dangling edge.from is silently recorded. -/
def addEdges (acc : List (String × List String)) :
    List EdgeDef → Except PyExc (List (String × List String))
  | [] => .ok acc
  | e :: rest =>
    match alookup acc e.toId with
    | none => .error (.keyError e.toId)
    | some l =>
      addEdges
        (ainsert acc e.toId (if l.contains e.fromId then l else l ++ [e.fromId]))
        rest

/-- The reverse dependency map dependencies[id] = set of predecessor ids
(engine.py lines 616 to 619 and 541 to 544, identical in both entry
points). -/
def build_dependencies (wf : Workflow) :
    Except PyExc (List (String × List String)) :=
  addEdges (wf.nodes.map (fun n => (n.id, ([] : List String)))) wf.edges

/-- Predecessor set of a node id in the built dependency map. -/
def depsOf (dm : List (String × List String)) (id : String) : List String :=
  (alookup dm id).getD []

/-- The synthetic failure result recorded by _check_dependencies
(engine.py lines 280 to 284): success false, FAILED, the Chinese message
whose literal translation is: dependency node execution failed. -/
def depFailedResult : NodeResult :=
  { success := false, status := .failed, error := some "依赖节点执行失败" }

/-- Predicate of _check_dependencies (engine.py lines 278 to 279): every
predecessor has a recorded result with success true. -/
def depsSatisfied (deps : List String) (results : ResMap) : Bool :=
  deps.all (fun d =>
    match alookup results d with
    | some r => r.success
    | none => false)

/-- WorkflowEngine._check_dependencies (engine.py lines 260 to 287):
when some predecessor is missing or unsuccessful, record the synthetic
FAILED result for the node and report failure. -/
def check_dependencies (deps : List String) (nodeId : String)
    (results : ResMap) : Bool × ResMap :=
  if depsSatisfied deps results then (true, results)
  else (false, ainsert results nodeId depFailedResult)

/-- WorkflowEngine._get_downstream_nodes (engine.py lines 358 to 383):
the nodes having the finished node among their predecessors and all of
their predecessors present and successful. -/
def get_downstream_nodes (nodeId : String) (nodes : List NodeDef)
    (dm : List (String × List String)) (results : ResMap) : List NodeDef :=
  nodes.filter (fun n =>
    (depsOf dm n.id).contains nodeId && depsSatisfied (depsOf dm n.id) results)

/-- Scheduler state threaded through the node-processing tasks: the
workflow status entry, the shared results dict, and the ids whose node
body was actually invoked (instrumentation for the dependency rule). -/
structure SchedState where
  wfStatus : WorkflowStatus
  results : ResMap
  invoked : List String

/-- WorkflowEngine._process_node (engine.py lines 385 to 444) together
with the sequential task-list processing that the single-threaded event
loop performs for asyncio.create_task plus gather: the launched tasks of
a list are run one after the other, a task processes its node fully
(including its recursively launched downstream tasks) before the next
sibling task runs, and a propagating exception aborts the remaining
tasks.  For one node: return if the workflow is cancelled; record the
synthetic dependency failure and return if some predecessor is missing or
unsuccessful; resolve params (a raised ValueError propagates as the
second component); run execute_node, whose terminal event becomes the
node's recorded result; on success, launch the ready downstream nodes.
Recursion is structural on fuel, which strictly exceeds the recursion
depth whenever it exceeds the number of possible launches. -/
def process_seq (B : String → Data → NodeExec)
    (dm : List (String × List String)) (nodes : List NodeDef) :
    Nat → List NodeDef → SchedState → SchedState × Option PyExc
  | 0, _, st => (st, none)
  | _ + 1, [], st => (st, none)
  | fuel + 1, node :: rest, st =>
    let one : SchedState × Option PyExc :=
      if st.wfStatus = .cancelled then (st, none)
      else
        match check_dependencies (depsOf dm node.id) node.id st.results with
        | (false, results2) => ({ st with results := results2 }, none)
        | (true, _) =>
          match process_params node.params st.results with
          | .error e => (st, some (.valueError e))
          | .ok pp =>
            let evs := execute_node (B node.type pp)
            let finalRes := (evs.getLast?).getD depFailedResult
            let results2 := ainsert st.results node.id finalRes
            let st2 : SchedState :=
              { st with
                results := results2
                invoked := st.invoked ++ [node.id] }
            if finalRes.success then
              process_seq B dm nodes fuel
                (get_downstream_nodes node.id nodes dm results2) st2
            else (st2, none)
    match one with
    | (st2, some e) => (st2, some e)
    | (st2, none) => process_seq B dm nodes fuel rest st2

/-- One launched _process_node task in isolation: the node followed by an
empty remainder. -/
def process_node (B : String → Data → NodeExec)
    (dm : List (String × List String)) (nodes : List NodeDef)
    (fuel : Nat) (node : NodeDef) (st : SchedState) :
    SchedState × Option PyExc :=
  process_seq B dm nodes (fuel + 1) [node] st

/-- Fuel that strictly exceeds any recursion depth reachable on the
workflow: every call level either advances in a task list whose length is
bounded by the node count or descends one launch level, and each node can
be launched at most once per predecessor. -/
def schedFuel (wf : Workflow) : Nat :=
  (wf.nodes.length + wf.edges.length + 2) * (wf.nodes.length + 2)

/-- The expression all(node_id in results and results[node_id].success
for node in nodes) of execute_workflow (engine.py lines 651 to 654).  The
comprehension binds the name node, but its body reads node_id, which is
bound nowhere in execute_workflow, so evaluating the body raises
NameError; all() over an empty iterable returns True without evaluating
the body. -/
def all_success_collect (nodes : List NodeDef) (_results : ResMap) :
    Except PyExc Bool :=
  match nodes with
  | [] => .ok true
  | _ :: _ => .error (.nameError "node_id")

/-- The corresponding expression of execute_workflow_stream (engine.py
lines 571 to 574), which correctly reads node.id. -/
def all_success_stream (nodes : List NodeDef) (results : ResMap) : Bool :=
  nodes.all (fun n =>
    match alookup results n.id with
    | some r => r.success
    | none => false)

/-- Observable outcome of one engine entry-point call: the final status
map, the keys of the running-workflows dict, the shared results dict, the
ids whose body was invoked, and the returned or raised value. -/
structure WorkflowRun where
  statusMap : List (String × WorkflowStatus)
  running : List String
  results : ResMap
  invoked : List String
  retval : Except PyExc ResMap

/-- WorkflowEngine.execute_workflow (engine.py lines 592 to 672): the
collect entry point.  Validation and dependency-map construction happen
before the status is initialised; the entry set is processed; afterwards
the all-success expression is evaluated (raising NameError on any
non-empty node list); the except-clause marks the workflow FAILED and
re-raises; the finally-clause deletes the workflow from the
running-workflows dict if present (it never is, because nothing ever
inserts into that dict). -/
def execute_workflow (B : String → Data → NodeExec)
    (registered : List String) (wf : Workflow) (wid : String)
    (statusMap0 : List (String × WorkflowStatus)) (running0 : List String) :
    WorkflowRun :=
  match validate_workflow registered wf with
  | .error e =>
    { statusMap := statusMap0, running := running0, results := [],
      invoked := [], retval := .error (.validationError e) }
  | .ok _ =>
    match build_dependencies wf with
    | .error e =>
      { statusMap := statusMap0, running := running0, results := [],
        invoked := [], retval := .error e }
    | .ok dm =>
      let statusMap1 := ainsert statusMap0 wid .running
      let entry := wf.nodes.filter (fun n => (depsOf dm n.id).isEmpty)
      let st0 : SchedState :=
        { wfStatus := .running, results := [], invoked := [] }
      let runningAfter := running0.filter (fun k => k ≠ wid)
      match process_seq B dm wf.nodes (schedFuel wf) entry st0 with
      | (st, some e) =>
        { statusMap := ainsert statusMap1 wid .failed,
          running := runningAfter, results := st.results,
          invoked := st.invoked, retval := .error e }
      | (st, none) =>
        match all_success_collect wf.nodes st.results with
        | .error e =>
          { statusMap := ainsert statusMap1 wid .failed,
            running := runningAfter, results := st.results,
            invoked := st.invoked, retval := .error e }
        | .ok b =>
          { statusMap :=
              ainsert statusMap1 wid
                (if b then .completed else .failed),
            running := runningAfter, results := st.results,
            invoked := st.invoked, retval := .ok st.results }

/-- WorkflowEngine.execute_workflow_stream (engine.py lines 517 to 590):
the stream entry point.  The yielded event pairs are abstracted away; the
node traversal order of the sequential stream recursion coincides with
the collect form's linearisation, so the same scheduler model is run; the
final status uses the correct per-node all-success expression of lines
571 to 574. -/
def execute_workflow_stream (B : String → Data → NodeExec)
    (registered : List String) (wf : Workflow) (wid : String)
    (statusMap0 : List (String × WorkflowStatus)) (running0 : List String) :
    WorkflowRun :=
  match validate_workflow registered wf with
  | .error e =>
    { statusMap := statusMap0, running := running0, results := [],
      invoked := [], retval := .error (.validationError e) }
  | .ok _ =>
    match build_dependencies wf with
    | .error e =>
      { statusMap := statusMap0, running := running0, results := [],
        invoked := [], retval := .error e }
    | .ok dm =>
      let statusMap1 := ainsert statusMap0 wid .running
      let entry := wf.nodes.filter (fun n => (depsOf dm n.id).isEmpty)
      let st0 : SchedState :=
        { wfStatus := .running, results := [], invoked := [] }
      let runningAfter := running0.filter (fun k => k ≠ wid)
      match process_seq B dm wf.nodes (schedFuel wf) entry st0 with
      | (st, some e) =>
        { statusMap := ainsert statusMap1 wid .failed,
          running := runningAfter, results := st.results,
          invoked := st.invoked, retval := .error e }
      | (st, none) =>
        { statusMap :=
            ainsert statusMap1 wid
              (if all_success_stream wf.nodes st.results then .completed
               else .failed),
          running := runningAfter, results := st.results,
          invoked := st.invoked, retval := .ok st.results }

/-- WorkflowEngine.cancel_workflow (engine.py lines 113 to 117): only
when the workflow id is a key of the running-workflows dict does it
cancel the task and set the status to CANCELLED; otherwise it does
nothing. -/
def cancel_workflow (statusMap : List (String × WorkflowStatus))
    (running : List String) (wid : String) :
    List (String × WorkflowStatus) × List String :=
  if running.contains wid then (ainsert statusMap wid .cancelled, running)
  else (statusMap, running)

/-- Processing an empty task list leaves the state unchanged. -/
lemma process_seq_nil (B : String → Data → NodeExec)
    (dm : List (String × List String)) (nodes : List NodeDef) :
    ∀ fuel st, process_seq B dm nodes fuel [] st = (st, none)
  | 0, _ => rfl
  | _ + 1, _ => rfl

/-- Demonstration node behaviours: an ok node returning a small data
dict, and a bad node whose body raises. -/
def demoBehavior : String → Data → NodeExec
  | "ok_node", _ => .ret (.ok (some [("x", .vInt 2)]))
  | "bad_node", _ => .ret (.error "boom")
  | _, _ => .ret (.ok none)

/-- The registered node types of the demonstration engine. -/
def registeredTypes : List String := ["ok_node", "bad_node"]

/-- A single successful node and no edges. -/
def wfSingle : Workflow := ⟨[⟨"a", "ok_node", []⟩], []⟩

/-- A failing node a with a successor b. -/
def wfDep : Workflow :=
  ⟨[⟨"a", "bad_node", []⟩, ⟨"b", "ok_node", []⟩], [⟨"a", "b"⟩]⟩

/-- Two isolated nodes where b references a node c that never runs. -/
def wfRes : Workflow :=
  ⟨[⟨"a", "ok_node", []⟩, ⟨"b", "ok_node", [("x", .vStr "$c.x")]⟩], []⟩

/-- A graph whose only edge points to an undeclared node id b. -/
def wfDangTo : Workflow := ⟨[⟨"a", "ok_node", []⟩], [⟨"a", "b"⟩]⟩

/-- A graph whose only edge comes from an undeclared node id c. -/
def wfDangFrom : Workflow := ⟨[⟨"b", "ok_node", []⟩], [⟨"c", "b"⟩]⟩

/-- C1: the claim is right and the code is wrong: on a validated one-node
graph whose node succeeds, the stream entry point marks the workflow
COMPLETED, but the collect entry point raises NameError (its all-success
expression reads the unbound name node_id, engine.py line 652) and its
except-clause marks the workflow FAILED instead of COMPLETED, so the
collect form neither sets the status by the all-success rule nor returns
the progress map. -/
theorem c1_theorem :
    (execute_workflow demoBehavior registeredTypes wfSingle "w" [] []).retval
      = .error (.nameError "node_id") ∧
    alookup (execute_workflow demoBehavior registeredTypes wfSingle "w"
      [] []).statusMap "w" = some .failed ∧
    all_success_stream wfSingle.nodes
      (execute_workflow demoBehavior registeredTypes wfSingle "w"
        [] []).results = true ∧
    alookup (execute_workflow_stream demoBehavior registeredTypes wfSingle
      "w" [] []).statusMap "w" = some .completed ∧
    (execute_workflow_stream demoBehavior registeredTypes wfSingle "w"
      [] []).retval
      = .ok [("a", completedResult (some [("x", .vInt 2)]))] :=
  ⟨rfl, rfl, rfl, rfl, rfl⟩

/-- C2: the claim is false: in a run of the two-node graph where the
predecessor a fails, the successor b is never launched, so its recorded
result is not a synthetic FAILED NodeResult but no result at all; and the
synthetic result the engine would record carries the Chinese message, not
the string: dependency failed. -/
theorem c2_counterexample :
    alookup (execute_workflow_stream demoBehavior registeredTypes wfDep "w"
      [] []).results "a" = some (failedResult "boom") ∧
    alookup (execute_workflow_stream demoBehavior registeredTypes wfDep "w"
      [] []).results "b" = none ∧
    depFailedResult.error ≠ some "dependency failed" := by
  refine ⟨rfl, rfl, ?_⟩
  simp [depFailedResult]

/-- C2 (amended): a launched node task that finds some predecessor
missing from the results or unsuccessful records the synthetic FAILED
result carrying the Chinese dependency-failure message (literally:
dependency node execution failed) and returns without invoking the node
body; but a node whose predecessor terminally fails is normally never
launched at all, ending the run with no recorded result for that node and
its body not invoked, as in the concrete failing-predecessor run. -/
theorem c2_theorem :
    (∀ (B : String → Data → NodeExec) dm nodes fuel node (st : SchedState),
      st.wfStatus ≠ .cancelled →
      depsSatisfied (depsOf dm node.id) st.results = false →
      process_node B dm nodes fuel node st =
        ({ st with results := ainsert st.results node.id depFailedResult },
          none)) ∧
    depFailedResult.success = false ∧
    depFailedResult.status = .failed ∧
    depFailedResult.error = some "依赖节点执行失败" ∧
    (execute_workflow_stream demoBehavior registeredTypes wfDep "w"
      [] []).invoked = ["a"] ∧
    alookup (execute_workflow_stream demoBehavior registeredTypes wfDep "w"
      [] []).results "b" = none ∧
    alookup (execute_workflow_stream demoBehavior registeredTypes wfDep "w"
      [] []).statusMap "w" = some .failed := by
  refine ⟨?_, rfl, rfl, rfl, rfl, rfl, rfl⟩
  intro B dm nodes fuel node st h1 h2
  simp only [process_node, process_seq, check_dependencies, h2,
    if_neg h1, Bool.false_eq_true, if_false]
  rw [process_seq_nil]

/-- C2 witness: the amended per-launch rule applied to node b of the
failing-predecessor graph in the state where a has already failed. -/
theorem c2_witness :
    process_node demoBehavior [("a", []), ("b", ["a"])] wfDep.nodes 5
      ⟨"b", "ok_node", []⟩
      ⟨.running, [("a", failedResult "boom")], ["a"]⟩ =
      (⟨.running,
        [("a", failedResult "boom"), ("b", depFailedResult)], ["a"]⟩,
        none) :=
  c2_theorem.1 demoBehavior [("a", []), ("b", ["a"])] wfDep.nodes 5
    ⟨"b", "ok_node", []⟩
    ⟨.running, [("a", failedResult "boom")], ["a"]⟩
    (by simp) rfl

/-- C5: the claim is false: a parameter-resolution failure on node b (a
reference to a node c with no recorded result) is not recorded as a
FAILED NodeResult for b; the ValueError propagates out of the collect
entry point, which marks the workflow FAILED and re-raises, leaving b
with no recorded result. -/
theorem c5_counterexample :
    (execute_workflow demoBehavior registeredTypes wfRes "w" [] []).retval
      = .error (.valueError "引用了未执行的节点: c") ∧
    alookup (execute_workflow demoBehavior registeredTypes wfRes "w"
      [] []).results "b" = none := ⟨rfl, rfl⟩

/-- C5 (amended): a parameter-resolution failure on a launched node makes
the raised ValueError propagate out of the node task: no result is
recorded for the node and its body is not invoked; the workflow is marked
FAILED and the collect entry point re-raises the error instead of
returning; sibling nodes processed before the failing one keep their
completed results, as node a does in the concrete run. -/
theorem c5_theorem :
    (∀ (B : String → Data → NodeExec) dm nodes fuel node (st : SchedState)
      (e : String),
      st.wfStatus ≠ .cancelled →
      depsSatisfied (depsOf dm node.id) st.results = true →
      process_params node.params st.results = .error e →
      process_node B dm nodes fuel node st = (st, some (.valueError e))) ∧
    alookup (execute_workflow demoBehavior registeredTypes wfRes "w"
      [] []).statusMap "w" = some .failed ∧
    (execute_workflow demoBehavior registeredTypes wfRes "w" [] []).retval
      = .error (.valueError "引用了未执行的节点: c") ∧
    alookup (execute_workflow demoBehavior registeredTypes wfRes "w"
      [] []).results "a"
      = some (completedResult (some [("x", .vInt 2)])) ∧
    (execute_workflow demoBehavior registeredTypes wfRes "w"
      [] []).invoked = ["a"] := by
  refine ⟨?_, rfl, rfl, rfl, rfl⟩
  intro B dm nodes fuel node st e h1 h2 h3
  simp only [process_node, process_seq, check_dependencies, h2, if_true,
    if_neg h1, h3]

/-- C5 witness: the amended per-launch rule applied to node b of the
unresolved-reference graph in the state where a has completed. -/
theorem c5_witness :
    process_node demoBehavior [("a", []), ("b", [])] wfRes.nodes 5
      ⟨"b", "ok_node", [("x", .vStr "$c.x")]⟩
      ⟨.running, [("a", completedResult (some [("x", .vInt 2)]))], ["a"]⟩ =
      (⟨.running, [("a", completedResult (some [("x", .vInt 2)]))], ["a"]⟩,
        some (.valueError "引用了未执行的节点: c")) :=
  c5_theorem.1 demoBehavior [("a", []), ("b", [])] wfRes.nodes 5
    ⟨"b", "ok_node", [("x", .vStr "$c.x")]⟩
    ⟨.running, [("a", completedResult (some [("x", .vInt 2)]))], ["a"]⟩
    "引用了未执行的节点: c" (by simp) rfl rfl

/-- C6: the claim is right and the code is wrong: cancel_workflow acts
only when the workflow id is a key of the running-workflows dict, but no
code path ever inserts into that dict (execute_workflow only deletes from
it in its finally-clause), so cancelling a workflow started by either
entry point leaves its status unchanged, and it stays RUNNING rather than
transitioning to CANCELLED. -/
theorem c6_theorem :
    (∀ statusMap running wid, running.contains wid = false →
      cancel_workflow statusMap running wid = (statusMap, running)) ∧
    (∀ (B : String → Data → NodeExec) regs wf wid statusMap0 r0,
      r0.contains wid = false →
      ((execute_workflow B regs wf wid statusMap0 r0).running).contains wid
        = false) ∧
    cancel_workflow [("w", .running)] [] "w" = ([("w", .running)], []) ∧
    WorkflowStatus.running ≠ WorkflowStatus.cancelled := by
  have hf : ∀ (l : List String) (wid : String),
      (l.filter (fun k => decide (k ≠ wid))).contains wid = false := by
    intro l wid
    simp [List.contains, List.elem_eq_mem, List.mem_filter]
  refine ⟨?_, ?_, rfl, by simp⟩
  · intro statusMap running wid h
    have h2 : wid ∉ running := (contains_eq_false_iff _ _).mp h
    simp [cancel_workflow, h2]
  · intro B regs wf wid statusMap0 r0 h
    unfold execute_workflow
    split
    · exact h
    · split
      · exact h
      · dsimp only
        split
        · exact hf r0 wid
        · split
          · exact hf r0 wid
          · exact hf r0 wid

/-- C6 witness: cancelling a workflow whose status entry is RUNNING while
the running-workflows dict holds an unrelated key changes nothing. -/
theorem c6_witness :
    cancel_workflow [("w", .running)] ["other"] "w"
      = ([("w", .running)], ["other"]) :=
  c6_theorem.1 [("w", .running)] ["other"] "w" (by decide)

/-- C7: the claim is false: the validator accepts the graph whose only
edge points to the undeclared node id b: there is no dangling-edge check
and no DANGLING_EDGE classification in validate_workflow. -/
theorem c7_counterexample :
    validate_workflow registeredTypes wfDangTo = .ok true ∧
    wfDangTo.edges.map (fun e => e.toId) = ["b"] ∧
    (wfDangTo.nodes.map (fun n => n.id)).contains "b" = false :=
  ⟨rfl, rfl, rfl⟩

/-- C7 (amended): validate_workflow checks only duplicate ids, unknown
types and cycles: any graph passing those three checks is accepted
regardless of dangling edges.  A dangling to-endpoint instead raises
KeyError while execute_workflow builds the dependency map, after
validation but before the workflow status is initialised and before any
node runs; a dangling from-endpoint validates and schedules, but the
target node is never launched and the run ends FAILED. -/
theorem c7_theorem :
    (∀ (registered : List String) (wf : Workflow),
      (wf.nodes.map (fun n => n.id)).Nodup →
      (∀ n ∈ wf.nodes, registered.contains n.type = true) →
      hasCycle (graphEdges wf) = false →
      validate_workflow registered wf = .ok true) ∧
    build_dependencies wfDangTo = .error (.keyError "b") ∧
    (execute_workflow demoBehavior registeredTypes wfDangTo "w"
      [] []).retval = .error (.keyError "b") ∧
    (execute_workflow demoBehavior registeredTypes wfDangTo "w"
      [] []).statusMap = [] ∧
    (execute_workflow demoBehavior registeredTypes wfDangTo "w"
      [] []).invoked = [] ∧
    validate_workflow registeredTypes wfDangFrom = .ok true ∧
    (execute_workflow_stream demoBehavior registeredTypes wfDangFrom "w"
      [] []).results = [] ∧
    alookup (execute_workflow_stream demoBehavior registeredTypes
      wfDangFrom "w" [] []).statusMap "w" = some .failed := by
  refine ⟨?_, rfl, rfl, rfl, rfl, rfl, rfl, rfl⟩
  intro registered wf h1 h2 h3
  have hfind : wf.nodes.find? (fun n => !(registered.contains n.type))
      = none := by
    rw [List.find?_eq_none]
    intro n hn
    have hm : n.type ∈ registered := (contains_eq_true_iff _ _).mp (h2 n hn)
    simp [List.contains, List.elem_eq_mem, hm]
  unfold validate_workflow
  rw [if_pos h1, hfind]
  simp [h3]

/-- C7 witness: the amended acceptance rule applied to the one-node
workflow: unique ids, registered type, no cycle, hence accepted. -/
theorem c7_witness :
    validate_workflow registeredTypes wfSingle = .ok true :=
  c7_theorem.1 registeredTypes wfSingle (by decide) (by decide) rfl

/-- Tool dataclass (agent.py lines 149 to 158) restricted to the fields
the loop consults; run is the tool body as a pure function returning the
observation or the raised error message, so every retry attempt behaves
alike.  The dataclass defaults are max_retries 0 and retry_delay 1. -/
structure ATool where
  name : String
  run : String → Except String String
  max_retries : Nat := 0
  retry_delay : Nat := 1

/-- Events the agent publishes to the stream manager (src/api/events.py),
restricted to those Agent.run emits; payload timestamps are dropped. -/
inductive AgentEvent where
  | agent_start (query : String)
  | agent_thinking (msg : String)
  | action_start (action : String) (input : String)
  | tool_progress (tool : String) (input : String)
  | action_complete (action : String) (observation : String)
  | tool_retry (tool : String) (attempt maxRetries : Nat) (err : String)
  | agent_error (msg : String)
  | agent_complete (answer : String)
deriving Repr, DecidableEq

/-- Exceptions Agent.run raises (agent.py lines 133 to 147 and the
AgentError raised on exhaustion). -/
inductive AgentErr where
  | toolNotFound (msg : String)
  | toolExecution (msg : String)
  | exhausted (msg : String)
deriving Repr, DecidableEq

/-- Python str of the agent exceptions: the message they carry. -/
def agentErrStr : AgentErr → String
  | .toolNotFound m => m
  | .toolExecution m => m
  | .exhausted m => m

/-- Lookup of self.tools[action] in the dict built from the tool list. -/
def findTool (tools : List ATool) (a : String) : Option ATool :=
  tools.find? (fun t => t.name == a)

/-- The tool retry loop of Agent.run (agent.py lines 375 to 417): while
retry_count is at most max_retries, emit tool_progress and run the tool;
on success emit action_complete and stop with the observation; on an
exception increment retry_count, emit tool_retry, and raise
ToolExecutionError once retry_count exceeds max_retries, else sleep and
retry.  Fuel bounds the attempts; max_retries plus one minus retry_count
attempts can happen, so fuel max_retries plus one always suffices. -/
def tool_retry_go (tool : ATool) (input : String) :
    Nat → Nat → List AgentEvent × Except AgentErr String
  | _, 0 => ([], .error (.toolExecution "unreachable: fuel exhausted"))
  | retry_count, fuel + 1 =>
    if retry_count ≤ tool.max_retries then
      let ev1 : AgentEvent := .tool_progress tool.name input
      match tool.run input with
      | .ok obs => ([ev1, .action_complete tool.name obs], .ok obs)
      | .error e =>
        let rc2 := retry_count + 1
        let ev2 : AgentEvent := .tool_retry tool.name rc2 tool.max_retries e
        if tool.max_retries < rc2 then
          ([ev1, ev2],
            .error (.toolExecution
              ("Tool " ++ tool.name ++ " failed after " ++ toString rc2 ++
                " retries: " ++ e)))
        else
          let r := tool_retry_go tool input rc2 fuel
          (ev1 :: ev2 :: r.1, r.2)
    else ([], .error (.toolExecution "unreachable: loop guard false"))

/-- The while-loop of Agent.run (agent.py lines 340 to 433), modelled with
the prompt assembly, caching and LLM transport abstracted into acts, the
parsed action and action input of each iteration (as produced by
_parse_action, one-based).  Each iteration emits agent_thinking; a Final
Answer action ends the loop; an empty or unknown action raises
ToolNotFoundError, which the inner except-clause reports as agent_error
before re-raising; otherwise the tool runs under the retry loop, whose
terminal failure is likewise reported as agent_error and re-raised.  Fuel
is the number of remaining iterations.  The result is ok (some answer),
ok none when the iteration budget ran out, or the raised exception. -/
def agent_loop (tools : List ATool) (acts : Nat → String × String) :
    Nat → Nat → List AgentEvent × Except AgentErr (Option String)
  | _, 0 => ([], .ok none)
  | i, fuel + 1 =>
    let it := i + 1
    let evThink : AgentEvent := .agent_thinking ("Iteration " ++ toString it)
    let a := (acts it).1
    let inp := (acts it).2
    if a = "Final Answer" then ([evThink], .ok (some inp))
    else if a = "" then
      ([evThink, .agent_error ("Invalid action: " ++ a)],
        .error (.toolNotFound ("Invalid action: " ++ a)))
    else
      match findTool tools a with
      | none =>
        ([evThink, .agent_error ("Invalid action: " ++ a)],
          .error (.toolNotFound ("Invalid action: " ++ a)))
      | some tool =>
        let r := tool_retry_go tool inp 0 (tool.max_retries + 1)
        match r.2 with
        | .error e =>
          ([evThink, .action_start a inp] ++ r.1 ++
            [.agent_error (agentErrStr e)], .error e)
        | .ok _ =>
          let rec2 := agent_loop tools acts it fuel
          (([evThink, .action_start a inp] ++ r.1) ++ rec2.1, rec2.2)

/-- The AgentError message raised when the loop ends without a final
answer (agent.py line 436). -/
def exhaustMsg (maxIter : Nat) : String :=
  "Failed to get final answer after " ++ toString maxIter ++ " iterations"

/-- Agent.run (agent.py lines 312 to 454) with stream enabled: emit
agent_start, run the loop, and afterwards: a falsy final answer (None
because the budget ran out, or the empty string, since the check on line
435 is Python truthiness) emits agent_error and raises AgentError, which
the outer except-clause reports with a second agent_error before
re-raising; an exception from the loop is likewise reported again by the
outer except-clause; otherwise agent_complete is emitted and the answer
returned. -/
def agent_run (tools : List ATool) (acts : Nat → String × String)
    (maxIter : Nat) (query : String) :
    List AgentEvent × Except AgentErr String :=
  let r := agent_loop tools acts 0 maxIter
  match r.2 with
  | .error e =>
    (.agent_start query :: r.1 ++ [.agent_error (agentErrStr e)], .error e)
  | .ok (some ans) =>
    if ans = "" then
      (.agent_start query :: r.1 ++
        [.agent_error (exhaustMsg maxIter), .agent_error (exhaustMsg maxIter)],
        .error (.exhausted (exhaustMsg maxIter)))
    else
      (.agent_start query :: r.1 ++ [.agent_complete ans], .ok ans)
  | .ok none =>
    (.agent_start query :: r.1 ++
      [.agent_error (exhaustMsg maxIter), .agent_error (exhaustMsg maxIter)],
      .error (.exhausted (exhaustMsg maxIter)))

/-- Number of agent_thinking events, one per think/act cycle. -/
def countThinking (evs : List AgentEvent) : Nat :=
  (evs.filter (fun e =>
    match e with
    | .agent_thinking _ => true
    | _ => false)).length

/-- Number of tool_retry events. -/
def countToolRetry (evs : List AgentEvent) : Nat :=
  (evs.filter (fun e =>
    match e with
    | .tool_retry _ _ _ _ => true
    | _ => false)).length

lemma countThinking_append (a b : List AgentEvent) :
    countThinking (a ++ b) = countThinking a + countThinking b := by
  simp [countThinking, List.filter_append]

lemma countToolRetry_append (a b : List AgentEvent) :
    countToolRetry (a ++ b) = countToolRetry a + countToolRetry b := by
  simp [countToolRetry, List.filter_append]

lemma tool_retry_go_ok (tool : ATool) (input obs : String)
    (h : tool.run input = .ok obs) (fuel : Nat) :
    tool_retry_go tool input 0 (fuel + 1)
      = ([.tool_progress tool.name input,
          .action_complete tool.name obs], .ok obs) := by
  unfold tool_retry_go
  rw [if_pos (Nat.zero_le _), h]

lemma tool_retry_go_no_thinking (tool : ATool) (input : String) :
    ∀ fuel rc, countThinking (tool_retry_go tool input rc fuel).1 = 0 := by
  intro fuel
  induction fuel with
  | zero => intro rc; rfl
  | succ f ih =>
    intro rc
    unfold tool_retry_go
    split
    · cases hrun : tool.run input with
      | ok obs => simp [hrun, countThinking]
      | error e =>
        simp only [hrun]
        split
        · simp [countThinking]
        · have h2 := ih (rc + 1)
          simp [countThinking] at h2 ⊢
          exact h2
    · rfl

lemma agent_loop_thinking_le (tools : List ATool)
    (acts : Nat → String × String) :
    ∀ fuel i, countThinking (agent_loop tools acts i fuel).1 ≤ fuel := by
  intro fuel
  induction fuel with
  | zero => intro i; simp [agent_loop, countThinking]
  | succ f ih =>
    intro i
    unfold agent_loop
    dsimp only
    split
    · simp [countThinking]
    · split
      · simp [countThinking]
      · split
        · simp [countThinking]
        · rename_i tool _
          cases hres : (tool_retry_go tool (acts (i + 1)).2 0
              (tool.max_retries + 1)).2 with
          | error e =>
            simp only [hres]
            rw [countThinking_append, countThinking_append,
              tool_retry_go_no_thinking]
            simp [countThinking]
          | ok obs =>
            simp only [hres]
            rw [countThinking_append, countThinking_append,
              tool_retry_go_no_thinking]
            have h2 := ih (i + 1)
            simp [countThinking] at h2 ⊢
            omega

lemma agent_loop_ok_none (tools : List ATool)
    (acts : Nat → String × String) :
    ∀ fuel i,
    (∀ it, i < it → it ≤ i + fuel →
      (acts it).1 ≠ "Final Answer" ∧ (acts it).1 ≠ "" ∧
      ∃ t, findTool tools (acts it).1 = some t ∧
        ∃ obs, t.run (acts it).2 = .ok obs) →
    (agent_loop tools acts i fuel).2 = .ok none := by
  intro fuel
  induction fuel with
  | zero => intro i _; rfl
  | succ f ih =>
    intro i h
    obtain ⟨hfa, hne, t, hft, obs, hrun⟩ :=
      h (i + 1) (by omega) (by omega)
    unfold agent_loop
    dsimp only
    rw [if_neg hfa, if_neg hne, hft]
    dsimp only
    rw [tool_retry_go_ok t (acts (i + 1)).2 obs hrun t.max_retries]
    exact ih (i + 1) (fun it h1 h2 => h it (by omega) (by omega))

lemma agent_loop_no_retry (tools : List ATool)
    (acts : Nat → String × String)
    (hok : ∀ t ∈ tools, ∀ inp, ∃ r, t.run inp = .ok r) :
    ∀ fuel i, countToolRetry (agent_loop tools acts i fuel).1 = 0 ∧
      ∀ m, (agent_loop tools acts i fuel).2
        ≠ .error (.toolExecution m) := by
  intro fuel
  induction fuel with
  | zero => intro i; exact ⟨rfl, by intro m h; cases h⟩
  | succ f ih =>
    intro i
    unfold agent_loop
    dsimp only
    split
    · exact ⟨by simp [countToolRetry], by intro m h; cases h⟩
    · split
      · exact ⟨by simp [countToolRetry], by intro m h; cases h⟩
      · split
        · exact ⟨by simp [countToolRetry], by intro m h; cases h⟩
        · rename_i tool hft
          have htool : tool ∈ tools := List.mem_of_find?_eq_some hft
          obtain ⟨obs, hrun⟩ := hok tool htool (acts (i + 1)).2
          rw [tool_retry_go_ok tool (acts (i + 1)).2 obs hrun]
          dsimp only
          refine ⟨?_, (ih (i + 1)).2⟩
          rw [countToolRetry_append, countToolRetry_append]
          have h2 := (ih (i + 1)).1
          simp [countToolRetry] at h2 ⊢
          exact h2

lemma getLast_cons_append_pair {α : Type} (x a b : α) (l : List α) :
    (x :: (l ++ [a, b])).getLast? = some b := by
  rw [show x :: (l ++ [a, b]) = (x :: l ++ [a]) ++ [b] by simp]
  exact List.getLast?_concat _

/-- C8 (confirmed): the agent emits at most max_iterations agent_thinking
events (one per think/act cycle) in any run, and whenever every iteration
up to the budget yields an action other than Final Answer (with the tool
present and succeeding, so that no exception ends the run early), the run
raises the exhaustion AgentError whose message names max_iterations, and
the final emitted event is the corresponding agent_error. -/
theorem c8_theorem :
    (∀ (tools : List ATool) (acts : Nat → String × String)
      (maxIter : Nat) (query : String),
      countThinking (agent_run tools acts maxIter query).1 ≤ maxIter) ∧
    (∀ (tools : List ATool) (acts : Nat → String × String)
      (maxIter : Nat) (query : String),
      (∀ it, 1 ≤ it → it ≤ maxIter →
        (acts it).1 ≠ "Final Answer" ∧ (acts it).1 ≠ "" ∧
        ∃ t, findTool tools (acts it).1 = some t ∧
          ∃ obs, t.run (acts it).2 = .ok obs) →
      (agent_run tools acts maxIter query).2
        = .error (.exhausted (exhaustMsg maxIter)) ∧
      (agent_run tools acts maxIter query).1.getLast?
        = some (.agent_error (exhaustMsg maxIter))) := by
  constructor
  · intro tools acts maxIter query
    have hle := agent_loop_thinking_le tools acts maxIter 0
    unfold agent_run
    dsimp only
    split
    · simpa [countThinking, List.filter_append] using hle
    · split
      · simpa [countThinking, List.filter_append] using hle
      · simpa [countThinking, List.filter_append] using hle
    · simpa [countThinking, List.filter_append] using hle
  · intro tools acts maxIter query h
    have hnone : (agent_loop tools acts 0 maxIter).2 = .ok none :=
      agent_loop_ok_none tools acts maxIter 0
        (fun it h1 h2 => h it (by omega) (by omega))
    unfold agent_run
    dsimp only
    rw [hnone]
    exact ⟨rfl, getLast_cons_append_pair _ _ _ _⟩

/-- A round of actions that always invokes the search tool. -/
def actsSearchLoop : Nat → String × String := fun _ => ("search", "k")

/-- A search tool whose body always succeeds. -/
def searchTool : ATool := { name := "search", run := fun _ => .ok "found" }

/-- C8 witness: the theorem applied to a stub LLM that never answers: with
max_iterations 2 the run emits two agent_thinking events, fails with the
exhaustion error naming 2 iterations, and ends with agent_error. -/
theorem c8_witness :
    countThinking
      (agent_run [searchTool] actsSearchLoop 2 "q").1 ≤ 2 ∧
    (agent_run [searchTool] actsSearchLoop 2 "q").2
      = .error (.exhausted (exhaustMsg 2)) ∧
    (agent_run [searchTool] actsSearchLoop 2 "q").1.getLast?
      = some (.agent_error (exhaustMsg 2)) :=
  ⟨c8_theorem.1 [searchTool] actsSearchLoop 2 "q",
    (c8_theorem.2 [searchTool] actsSearchLoop 2 "q"
      (fun it _ _ => ⟨by simp [actsSearchLoop], by simp [actsSearchLoop],
        searchTool, rfl, "found", rfl⟩)).1,
    (c8_theorem.2 [searchTool] actsSearchLoop 2 "q"
      (fun it _ _ => ⟨by simp [actsSearchLoop], by simp [actsSearchLoop],
        searchTool, rfl, "found", rfl⟩)).2⟩

/-- The run wrapper that NodeConfigManager.get_tools builds around a node
body (node_config.py lines 145 to 153): any exception is caught and
returned as the string: Error executing node: message. -/
def create_tool_runner (body : String → Except String String) :
    String → Except String String :=
  fun input =>
    match body input with
    | .ok r => .ok r
    | .error e => .ok ("Error executing node: " ++ e)

/-- The Tool instance get_tools creates for a node type (node_config.py
lines 159 to 166): the wrapper as run and the dataclass defaults, in
particular max_retries 0. -/
def node_tool (ty : String) (body : String → Except String String) :
    ATool :=
  { name := ty, run := create_tool_runner body }

/-- A node body that always raises. -/
def crashBody : String → Except String String := fun _ => .error "boom"

/-- Actions invoking the crashing node once, then answering. -/
def actsCrash : Nat → String × String
  | 1 => ("crashnode", "k")
  | _ => ("Final Answer", "done")

/-- C10 (confirmed): a tool built by get_tools never raises: the wrapper
returns ok for every body and input, turning a raised error e into the
string: Error executing node: e, and such tools carry the default
max_retries 0.  Consequently, in any agent run whose tools all have
never-raising run members, no tool_retry event is emitted and the run
never fails with ToolExecutionError; concretely, a crashing node body
surfaces as action_complete whose observation is the error string, and
the run still completes. -/
theorem c10_theorem :
    (∀ (body : String → Except String String) (input : String),
      ∃ r, create_tool_runner body input = .ok r) ∧
    (∀ (body : String → Except String String) (input e : String),
      body input = .error e →
      create_tool_runner body input
        = .ok ("Error executing node: " ++ e)) ∧
    (∀ ty body, (node_tool ty body).max_retries = 0 ∧
      (node_tool ty body).name = ty) ∧
    (∀ (tools : List ATool) (acts : Nat → String × String)
      (maxIter : Nat) (query : String),
      (∀ t ∈ tools, ∀ inp, ∃ r, t.run inp = .ok r) →
      countToolRetry (agent_run tools acts maxIter query).1 = 0 ∧
      ∀ m, (agent_run tools acts maxIter query).2
        ≠ .error (.toolExecution m)) ∧
    (agent_run [node_tool "crashnode" crashBody] actsCrash 5 "q").1
      = [.agent_start "q", .agent_thinking "Iteration 1",
         .action_start "crashnode" "k", .tool_progress "crashnode" "k",
         .action_complete "crashnode" "Error executing node: boom",
         .agent_thinking "Iteration 2", .agent_complete "done"] ∧
    (agent_run [node_tool "crashnode" crashBody] actsCrash 5 "q").2
      = .ok "done" := by
  refine ⟨?_, ?_, ?_, ?_, rfl, rfl⟩
  · intro body input
    cases h : body input with
    | ok r => exact ⟨r, by simp [create_tool_runner, h]⟩
    | error e =>
      exact ⟨"Error executing node: " ++ e, by simp [create_tool_runner, h]⟩
  · intro body input e h
    simp [create_tool_runner, h]
  · intro ty body
    exact ⟨rfl, rfl⟩
  · intro tools acts maxIter query hok
    have hloop := agent_loop_no_retry tools acts hok maxIter 0
    unfold agent_run
    dsimp only
    split
    · rename_i e heq
      constructor
      · simpa [countToolRetry, List.filter_append] using hloop.1
      · intro m hc
        cases hc
        exact hloop.2 m heq
    · split
      · constructor
        · simpa [countToolRetry, List.filter_append] using hloop.1
        · intro m hc; cases hc
      · constructor
        · simpa [countToolRetry, List.filter_append] using hloop.1
        · intro m hc; cases hc
    · constructor
      · simpa [countToolRetry, List.filter_append] using hloop.1
      · intro m hc; cases hc

/-- C10 witness: the wrapper parts applied to the crashing body, and the
no-retry rule applied to the concrete crashing-tool run. -/
theorem c10_witness :
    create_tool_runner crashBody "k"
      = .ok ("Error executing node: " ++ "boom") ∧
    countToolRetry
      (agent_run [node_tool "crashnode" crashBody] actsCrash 5 "q").1
      = 0 :=
  ⟨c10_theorem.2.1 crashBody "k" "boom" rfl,
    (c10_theorem.2.2.2.1 [node_tool "crashnode" crashBody] actsCrash 5 "q"
      (by
        intro t ht inp
        rcases List.mem_singleton.mp ht with rfl
        exact c10_theorem.1 crashBody inp)).1⟩

/-- Chat message restricted to the two keys truncate_messages consults
(llm_api.py); other keys are carried through untouched by the Python
dict-spread and play no role. -/
structure Message where
  role : String
  content : String
deriving Repr, DecidableEq

/-- calculate_messages_length (llm_api.py lines 14 to 29): the summed
character length of every role and content. -/
def calculate_messages_length : List Message → Nat
  | [] => 0
  | m :: rest =>
    m.role.length + m.content.length + calculate_messages_length rest

/-- Python string slicing content[:n]. -/
def pySlice (s : String) (n : Nat) : String := String.mk (s.data.take n)

/-- The truncation loop of truncate_messages (llm_api.py lines 62 to 77):
a user message with truthy content is truncated while remaining_excess is
positive, keeping max(len - truncate_per_message, len // 2) characters;
everything else is appended unchanged.  Since the kept length never
exceeds len, the subtraction len - content_length is an ordinary natural
difference. -/
def truncate_go (tpm : Nat) : Int → List Message → List Message
  | _, [] => []
  | rem, m :: rest =>
    if m.role = "user" ∧ m.content ≠ "" ∧ 0 < rem then
      let len := m.content.length
      let clen := max (len - tpm) (len / 2)
      ⟨m.role, pySlice m.content clen⟩ ::
        truncate_go tpm (rem - ((len - clen : Nat) : Int)) rest
    else m :: truncate_go tpm rem rest

/-- The user-message filter of llm_api.py line 54: role is user and the
content is truthy (non-empty). -/
def userPred (m : Message) : Bool := m.role == "user" && !(m.content == "")

/-- truncate_messages (llm_api.py lines 31 to 82): empty lists and lists
within the budget are returned as is; so are oversize lists with no
truthy user message; otherwise each user content is cut by at most
excess // (number of user messages) characters, never below half. -/
def truncate_messages (messages : List Message) (max_length : Nat) :
    List Message :=
  if messages.isEmpty then messages
  else if calculate_messages_length messages ≤ max_length then messages
  else
    let excess := calculate_messages_length messages - max_length
    let user_messages := messages.filter userPred
    if user_messages.isEmpty then messages
    else truncate_go (excess / user_messages.length) (excess : Int) messages

/-- Relation between an input message and its truncated counterpart: the
role is preserved, non-user or empty-content messages are unchanged, and
the output content is a prefix of the input content keeping at least half
(floor) of its characters. -/
def msgRel (m m2 : Message) : Prop :=
  m2.role = m.role ∧
  (m.role ≠ "user" → m2 = m) ∧
  (m.content = "" → m2 = m) ∧
  m2.content.data <+: m.content.data ∧
  m.content.length / 2 ≤ m2.content.length

lemma msgRel_refl (m : Message) : msgRel m m :=
  ⟨rfl, fun _ => rfl, fun _ => rfl, List.prefix_refl _,
    Nat.div_le_self _ _⟩

lemma pySlice_length (s : String) (n : Nat) :
    (pySlice s n).length = min n s.length := by
  show (s.data.take n).length = min n s.data.length
  exact List.length_take _ _

lemma truncate_go_rel (tpm : Nat) :
    ∀ rem msgs, List.Forall₂ msgRel msgs (truncate_go tpm rem msgs) := by
  intro rem msgs
  induction msgs generalizing rem with
  | nil => exact List.Forall₂.nil
  | cons m rest ih =>
    unfold truncate_go
    split
    · rename_i hcond
      refine List.Forall₂.cons ?_ (ih _)
      refine ⟨rfl, fun hr => absurd hcond.1 hr,
        fun hc => absurd hc hcond.2.1, List.take_prefix _ _, ?_⟩
      rw [pySlice_length]
      have h1 : m.content.length / 2 ≤
          max (m.content.length - tpm) (m.content.length / 2) :=
        le_max_right _ _
      have h2 : m.content.length / 2 ≤ m.content.length :=
        Nat.div_le_self _ _
      omega
    · exact List.Forall₂.cons (msgRel_refl m) (ih _)

lemma truncate_messages_within (messages : List Message) (maxLen : Nat)
    (h : calculate_messages_length messages ≤ maxLen) :
    truncate_messages messages maxLen = messages := by
  unfold truncate_messages
  by_cases he : messages.isEmpty = true
  · rw [if_pos he]
  · rw [if_neg he, if_pos h]

lemma truncate_messages_no_users (messages : List Message) (maxLen : Nat)
    (h : (messages.filter userPred).isEmpty = true) :
    truncate_messages messages maxLen = messages := by
  unfold truncate_messages
  by_cases he : messages.isEmpty = true
  · rw [if_pos he]
  · rw [if_neg he]
    by_cases hc : calculate_messages_length messages ≤ maxLen
    · rw [if_pos hc]
    · rw [if_neg hc]
      dsimp only
      rw [if_pos h]

/-- A system message content of one hundred thousand characters. -/
def bigContent : String := String.mk (List.replicate 100000 'a')

lemma bigContent_length : bigContent.length = 100000 := by
  show (List.replicate 100000 'a').length = 100000
  exact List.length_replicate _ _

lemma calc_cons (m : Message) (rest : List Message) :
    calculate_messages_length (m :: rest)
      = m.role.length + m.content.length
        + calculate_messages_length rest := rfl

lemma big_calc :
    calculate_messages_length [⟨"system", bigContent⟩] = 100006 := by
  rw [calc_cons]
  rw [show (Message.mk "system" bigContent).content = bigContent from rfl,
    show (Message.mk "system" bigContent).role = "system" from rfl,
    bigContent_length,
    show ("system" : String).length = 6 from rfl,
    show calculate_messages_length [] = 0 from rfl]

/-- C9: the claim is false: a message list consisting of one system
message of one hundred thousand characters sums to 100006 characters,
exceeding the budget, yet truncate_messages returns it unchanged (there
is no user message to shorten), so the list is not truncated until the
budget is met. -/
theorem c9_counterexample :
    calculate_messages_length [⟨"system", bigContent⟩] > 100000 ∧
    truncate_messages [⟨"system", bigContent⟩] 100000
      = [⟨"system", bigContent⟩] ∧
    calculate_messages_length
      (truncate_messages [⟨"system", bigContent⟩] 100000) > 100000 := by
  have h2 : truncate_messages [⟨"system", bigContent⟩] 100000
      = [(⟨"system", bigContent⟩ : Message)] :=
    truncate_messages_no_users _ _ rfl
  refine ⟨?_, h2, ?_⟩
  · rw [big_calc]; norm_num
  · rw [h2, big_calc]; norm_num

/-- C9 (amended): lists whose summed role-plus-content length is within
the budget are returned unchanged, and so are oversize lists containing
no user message with non-empty content; in every case the output is
pointwise related to the input: roles are preserved, non-user messages
and messages with empty content are unchanged, and each output content is
a prefix of its input content keeping at least half (floor) of its
characters.  Meeting the budget is not guaranteed. -/
theorem c9_theorem :
    (∀ (messages : List Message) (maxLen : Nat),
      calculate_messages_length messages ≤ maxLen →
      truncate_messages messages maxLen = messages) ∧
    (∀ (messages : List Message) (maxLen : Nat),
      (messages.filter userPred).isEmpty = true →
      truncate_messages messages maxLen = messages) ∧
    (∀ (messages : List Message) (maxLen : Nat),
      List.Forall₂ msgRel messages (truncate_messages messages maxLen)) := by
  refine ⟨truncate_messages_within, truncate_messages_no_users, ?_⟩
  intro messages maxLen
  unfold truncate_messages
  split
  · exact (List.forall₂_same).mpr (fun m _ => msgRel_refl m)
  · split
    · exact (List.forall₂_same).mpr (fun m _ => msgRel_refl m)
    · dsimp only
      split
      · exact (List.forall₂_same).mpr (fun m _ => msgRel_refl m)
      · exact truncate_go_rel _ _ _

/-- C9 witness: the amended theorem applied to a two-message list within
the budget (returned unchanged) and to the oversize user message of ten
characters under budget four (related pointwise to its truncation). -/
theorem c9_witness :
    truncate_messages [⟨"user", "hi"⟩, ⟨"system", "ok"⟩] 100000
      = [⟨"user", "hi"⟩, ⟨"system", "ok"⟩] ∧
    truncate_messages [⟨"system", "abcdef"⟩] 3 = [⟨"system", "abcdef"⟩] ∧
    List.Forall₂ msgRel [⟨"user", "abcdefghij"⟩]
      (truncate_messages [⟨"user", "abcdefghij"⟩] 4) :=
  ⟨c9_theorem.1 [⟨"user", "hi"⟩, ⟨"system", "ok"⟩] 100000 (by decide),
    c9_theorem.2.1 [⟨"system", "abcdef"⟩] 3 rfl,
    c9_theorem.2.2 [⟨"user", "abcdefghij"⟩] 4⟩

end WorkflowRepo
